import Mathlib

/-!
Verification of the buoyancy-driven smoke-plume simulation
(`src/english/phiflow/smoke_plume.py`) against its specification.

The script's own code (the two step functions `step_inflow` /
`step_no_inflow`, the grid / inflow configuration, and the time-stepping
loop of `main`) is embedded directly.  The numerical operators it calls
live in the `phiflow` library, which is not part of the repository; those
operators (`advect.semi_lagrangian`, `advect.mac_cormack`, resampling
`@`, `SoftGeometryMask`, `fluid.make_incompressible`) are modelled from
the specification's component design (spec sections 4.1-4.5), as noted in
their doc comments.

All field values are rationals: the claims under study are structural
(sequencing, configuration, zero fixed points, divergence bounds of a
converged solve), none is about floating-point rounding.
-/

/-- Grid and solver configuration.  `nx × ny` is the staggered velocity
resolution, `mx × my` the centered smoke resolution, `bX × bY` the
physical box bounds (shared by both grids, as in `main`).  `tol`, `cap`
and `om` are the Poisson-solver tolerance, iteration cap and relaxation
factor (solver configuration inputs per spec section 6; the script leaves
them at library defaults). -/
structure Config where
  nx : ℕ
  ny : ℕ
  mx : ℕ
  my : ℕ
  bX : ℚ
  bY : ℚ
  tol : ℚ
  cap : ℕ
  om : ℚ

/-- Centered scalar smoke grid: one rational per cell (spec section 3,
CenteredGrid). -/
abbrev Smoke (cfg : Config) : Type := Fin cfg.mx → Fin cfg.my → ℚ

/-- Staggered velocity grid: x-components on vertical faces
(`(nx+1) × ny`), y-components on horizontal faces (`nx × (ny+1)`)
(spec section 3, StaggeredGrid). -/
abbrev Staggered (cfg : Config) : Type :=
  (Fin (cfg.nx + 1) → Fin cfg.ny → ℚ) × (Fin cfg.nx → Fin (cfg.ny + 1) → ℚ)

/-- Centered pressure grid on the velocity resolution. -/
abbrev Pressure (cfg : Config) : Type := Fin cfg.nx → Fin cfg.ny → ℚ

/-- SimulationState: the (velocity, smoke) pair (spec section 3). -/
abbrev SimState (cfg : Config) : Type := Staggered cfg × Smoke cfg

/-- Smoke-grid cell width in x. -/
def sdx (cfg : Config) : ℚ := cfg.bX / cfg.mx

/-- Smoke-grid cell width in y. -/
def sdy (cfg : Config) : ℚ := cfg.bY / cfg.my

/-- Velocity-grid cell width in x. -/
def vdx (cfg : Config) : ℚ := cfg.bX / cfg.nx

/-- Velocity-grid cell width in y. -/
def vdy (cfg : Config) : ℚ := cfg.bY / cfg.ny

/-- x-coordinate of the center of smoke cell `i`. -/
def smokeX (cfg : Config) (i : Fin cfg.mx) : ℚ := ((i : ℕ) + 1/2) * sdx cfg

/-- y-coordinate of the center of smoke cell `j`. -/
def smokeY (cfg : Config) (j : Fin cfg.my) : ℚ := ((j : ℕ) + 1/2) * sdy cfg

/-- Modelled from the spec (section 4.1): array lookup with the
constant-zero extrapolation rule — indices outside the array read 0.
Used for the velocity grid, constructed with `extrapolation=0.0`. -/
def getZero (n m : ℕ) (v : Fin n → Fin m → ℚ) (a b : ℤ) : ℚ :=
  if h : 0 ≤ a ∧ a < (n : ℤ) ∧ 0 ≤ b ∧ b < (m : ℤ) then
    v ⟨a.toNat, by omega⟩ ⟨b.toNat, by omega⟩
  else 0

/-- Modelled from the spec (section 4.1): array lookup with the
boundary-copy extrapolation rule — indices outside the array are clamped
to the nearest cell.  Used for the smoke grid, constructed with
`extrapolation=flow.extrapolation.BOUNDARY`. -/
def getClamp (n m : ℕ) (v : Fin n → Fin m → ℚ) (a b : ℤ) : ℚ :=
  if h : 0 < n ∧ 0 < m then
    v ⟨min a.toNat (n - 1), by omega⟩ ⟨min b.toNat (m - 1), by omega⟩
  else 0

/-- Modelled from the spec (section 4.1): bilinear interpolation of the
four nearest array entries in index space, `fx`/`fy` being fractional
index coordinates. -/
def bilin (g : ℤ → ℤ → ℚ) (fx fy : ℚ) : ℚ :=
  let i0 : ℤ := ⌊fx⌋
  let j0 : ℤ := ⌊fy⌋
  let tx : ℚ := fx - i0
  let ty : ℚ := fy - j0
  (1 - tx) * (1 - ty) * g i0 j0 + tx * (1 - ty) * g (i0 + 1) j0
    + (1 - tx) * ty * g i0 (j0 + 1) + tx * ty * g (i0 + 1) (j0 + 1)

/-- Modelled from the spec (sections 4.1, 3): sample the staggered
velocity at an arbitrary physical position, component-wise bilinear with
zero extrapolation.  x-components sit at `(i·dx, (j+1/2)·dy)`,
y-components at `((i+1/2)·dx, j·dy)`. -/
def sampleVel (cfg : Config) (u : Staggered cfg) (x y : ℚ) : ℚ × ℚ :=
  ( bilin (getZero (cfg.nx + 1) cfg.ny u.1) (x / vdx cfg) (y / vdy cfg - 1/2)
  , bilin (getZero cfg.nx (cfg.ny + 1) u.2) (x / vdx cfg - 1/2) (y / vdy cfg) )

/-- Modelled from the spec (section 4.1): sample the centered smoke grid
at an arbitrary physical position, bilinear with boundary-copy
extrapolation; cell centers sit at `((i+1/2)·dx, (j+1/2)·dy)`. -/
def sampleSmoke (cfg : Config) (s : Smoke cfg) (x y : ℚ) : ℚ :=
  bilin (getClamp cfg.mx cfg.my s) (x / sdx cfg - 1/2) (y / sdy cfg - 1/2)

/-- Modelled from the spec (section 4.2): `semi_lagrangian` on the
centered smoke grid — at every cell center, backtrace one Euler step
along the velocity and sample the field there. -/
def semi_lagrangian_smoke (cfg : Config) (s : Smoke cfg) (v : Staggered cfg)
    (dt : ℚ) : Smoke cfg :=
  fun i j =>
    let x := smokeX cfg i
    let y := smokeY cfg j
    let w := sampleVel cfg v x y
    sampleSmoke cfg s (x - dt * w.1) (y - dt * w.2)

/-- Modelled from the spec (section 4.2): `mac_cormack` — forward
semi-Lagrangian advect giving `A`, backward advect of `A` with `-dt`
giving `B`, corrected result `A + (1/2)·(field - B)`.  Per spec
section 9 the reference omits an explicit monotonicity clamp. -/
def mac_cormack (cfg : Config) (s : Smoke cfg) (v : Staggered cfg)
    (dt : ℚ) : Smoke cfg :=
  semi_lagrangian_smoke cfg s v dt
    + (1/2 : ℚ) • (s - semi_lagrangian_smoke cfg
        (semi_lagrangian_smoke cfg s v dt) v (-dt))

/-- Modelled from the spec (section 4.2): `semi_lagrangian` on the
staggered grid — each component is backtraced at its own face sample
points along the advecting velocity and the advected field is sampled
there component-wise. -/
def semi_lagrangian_velocity (cfg : Config) (f v : Staggered cfg)
    (dt : ℚ) : Staggered cfg :=
  ( fun i j =>
      let x := (i : ℕ) * vdx cfg
      let y := ((j : ℕ) + 1/2) * vdy cfg
      let w := sampleVel cfg v x y
      bilin (getZero (cfg.nx + 1) cfg.ny f.1)
        ((x - dt * w.1) / vdx cfg) ((y - dt * w.2) / vdy cfg - 1/2)
  , fun i j =>
      let x := ((i : ℕ) + 1/2) * vdx cfg
      let y := (j : ℕ) * vdy cfg
      let w := sampleVel cfg v x y
      bilin (getZero cfg.nx (cfg.ny + 1) f.2)
        ((x - dt * w.1) / vdx cfg - 1/2) ((y - dt * w.2) / vdy cfg) )

/-- The scalar smoke field times a constant direction vector, giving a
centered vector field — the embedding of `smoke_next * (0.0, 0.1)`. -/
def cmulVec (cfg : Config) (s : Smoke cfg) (b : ℚ × ℚ) :
    Smoke cfg × Smoke cfg :=
  (fun i j => s i j * b.1, fun i j => s i j * b.2)

/-- Modelled from the spec (sections 4.1, 4.4): the resampling operator
`f @ target` — each component of the centered vector field is sampled at
the corresponding staggered sample locations of `target`.  In phiflow
those locations depend only on `target`'s resolution and bounds, which
this embedding carries in `cfg`; `target`'s stored values are therefore
not consulted. -/
def resample_to_faces (cfg : Config) (f : Smoke cfg × Smoke cfg)
    (target : Staggered cfg) : Staggered cfg :=
  ( fun i j => sampleSmoke cfg f.1 ((i : ℕ) * vdx cfg) (((j : ℕ) + 1/2) * vdy cfg)
  , fun i j => sampleSmoke cfg f.2 (((i : ℕ) + 1/2) * vdx cfg) ((j : ℕ) * vdy cfg) )

/-- Discrete divergence of a staggered velocity, one value per velocity
cell (spec section 4.5, step 1). -/
def divS (cfg : Config) (u : Staggered cfg) : Pressure cfg :=
  fun i j =>
    (u.1 i.succ j - u.1 i.castSucc j) / vdx cfg
      + (u.2 i j.succ - u.2 i j.castSucc) / vdy cfg

/-- Discrete pressure gradient on the staggered grid, with zero normal
component on the closed-box walls (Neumann treatment, spec section 4.5). -/
def gradP (cfg : Config) (p : Pressure cfg) : Staggered cfg :=
  ( fun i j =>
      if h : 0 < (i : ℕ) ∧ (i : ℕ) < cfg.nx then
        (p ⟨(i : ℕ), h.2⟩ j - p ⟨(i : ℕ) - 1, by omega⟩ j) / vdx cfg
      else 0
  , fun i j =>
      if h : 0 < (j : ℕ) ∧ (j : ℕ) < cfg.ny then
        (p i ⟨(j : ℕ), h.2⟩ - p i ⟨(j : ℕ) - 1, by omega⟩) / vdy cfg
      else 0 )

/-- The 5-point Laplacian with wall-modified coefficients, obtained as
divergence of the wall-aware pressure gradient (spec section 4.5). -/
def lap (cfg : Config) (p : Pressure cfg) : Pressure cfg :=
  divS cfg (gradP cfg p)

/-- Modelled from the spec (section 4.5): the solver's convergence check
— the Poisson residual is within the configured tolerance at every
cell. -/
def residOk (cfg : Config) (rhs p : Pressure cfg) : Bool :=
  decide (∀ i j, |rhs i j - lap cfg p i j| ≤ cfg.tol)

/-- One sweep of the iterative Poisson solver (a simple residual
relaxation; the spec fixes only that the method is iterative with a
tolerance and an iteration cap, section 4.5). -/
def sweep (cfg : Config) (rhs p : Pressure cfg) : Pressure cfg :=
  fun i j => p i j + cfg.om * (rhs i j - lap cfg p i j)

/-- Modelled from the spec (section 4.5): iterate the Poisson solver at
most `k` more times; succeed as soon as the residual check passes, fail
(`none`) when the iteration cap is exhausted without convergence. -/
def solveP (cfg : Config) (rhs : Pressure cfg) : ℕ → Pressure cfg → Option (Pressure cfg)
  | 0, p => if residOk cfg rhs p then some p else none
  | k + 1, p => if residOk cfg rhs p then some p else solveP cfg rhs k (sweep cfg rhs p)

/-- Modelled from the spec (section 4.5): `fluid.make_incompressible` —
solve the discrete Poisson equation for pressure from the divergence of
the tentative velocity, then correct `u_next = u_tentative - ∇p`;
`none` reports the solver reaching its cap without convergence. -/
def make_incompressible (cfg : Config) (u : Staggered cfg) :
    Option (Staggered cfg × Pressure cfg) :=
  (solveP cfg (divS cfg u) cfg.cap 0).map fun p => (u - gradP cfg p, p)

/-- The buoyancy direction vector hard-coded in both step functions:
`(0.0, 0.1)`. -/
def buoyancy_vec : ℚ × ℚ := (0, 1/10)

/-- `step_inflow` from `main`: MacCormack-advect the smoke, add the two
inflow contributions, compute the buoyancy force from the new smoke
resampled onto the (closure-captured) velocity grid, self-advect the
velocity semi-Lagrangian, add the force scaled by `dt`, and project.
`captured` embeds the closure variable `velocity` read by
`@ velocity`. -/
def step_inflow (cfg : Config) (velocity_prev : Staggered cfg)
    (smoke_prev : Smoke cfg) (inflow : Smoke cfg × Smoke cfg)
    (captured : Staggered cfg) (dt : ℚ) : Option (SimState cfg) :=
  let smoke_next := mac_cormack cfg smoke_prev velocity_prev dt + inflow.1 + inflow.2
  let buoyancy_force := resample_to_faces cfg (cmulVec cfg smoke_next buoyancy_vec) captured
  let velocity_tent := semi_lagrangian_velocity cfg velocity_prev velocity_prev dt
    + dt • buoyancy_force
  (make_incompressible cfg velocity_tent).map fun r => (r.1, smoke_next)

/-- `step_no_inflow` from `main`: identical to `step_inflow` except that
no inflow is added to the advected smoke; the `inflow` argument is
received but never used. -/
def step_no_inflow (cfg : Config) (velocity_prev : Staggered cfg)
    (smoke_prev : Smoke cfg) (inflow : Smoke cfg × Smoke cfg)
    (captured : Staggered cfg) (dt : ℚ) : Option (SimState cfg) :=
  let smoke_next := mac_cormack cfg smoke_prev velocity_prev dt
  let buoyancy_force := resample_to_faces cfg (cmulVec cfg smoke_next buoyancy_vec) captured
  let velocity_tent := semi_lagrangian_velocity cfg velocity_prev velocity_prev dt
    + dt • buoyancy_force
  (make_incompressible cfg velocity_tent).map fun r => (r.1, smoke_next)

/-- One loop iteration of `main`: ticks `0 ≤ i < 50` call `step_inflow`,
later ticks call `step_no_inflow`; both receive the inflow pair and,
through the closure, the current value of the loop variable `velocity`
(equal to the first argument), with `dt` left at its default `1.0`. -/
def tick (cfg : Config) (inflow : Smoke cfg × Smoke cfg) (i : ℕ)
    (st : SimState cfg) : Option (SimState cfg) :=
  if i < 50 then step_inflow cfg st.1 st.2 inflow st.1 1
  else step_no_inflow cfg st.1 st.2 inflow st.1 1

/-- The initial SimulationState of `main`: zero velocity, zero smoke. -/
def initState (cfg : Config) : SimState cfg := (0, 0)

/-- The driver loop of `main`: the trajectory starts as `[smoke]` with
the initial smoke field, then each tick appends the new smoke field; a
projection failure aborts the run (the script catches nothing). -/
def run (cfg : Config) (inflow : Smoke cfg × Smoke cfg) :
    ℕ → Option (SimState cfg × List (Smoke cfg))
  | 0 => some (initState cfg, [(initState cfg).2])
  | n + 1 =>
      (run cfg inflow n).bind fun p =>
        (tick cfg inflow n p.1).map fun st => (st, p.2 ++ [st.2])

/-- `N_TIME_STEPS = 150` from the script. -/
def N_TIME_STEPS : ℕ := 150

/-- The configured run of `main`: velocity grid 64×64, smoke grid
200×200, bounds 100×300.  Solver tolerance, cap and relaxation factor
are not set by the script (library defaults); representative values are
fixed here. -/
def configuredCfg : Config := ⟨64, 64, 200, 200, 100, 300, 1/100000, 1000, 1/4⟩

/-- Modelled from the spec (section 3, geometry mask): phiflow's
`SoftGeometryMask` of a disk — weight 1 deep inside the disk, 0 outside,
blended across one cell width (`sdx`) around the boundary, using squared
distances so the blend is rational. -/
def softDiskMask (cfg : Config) (cx cy r x y : ℚ) : ℚ :=
  let d2 := (x - cx) ^ 2 + (y - cy) ^ 2
  let ro := r + sdx cfg / 2
  let ri := r - sdx cfg / 2
  max 0 (min 1 ((ro ^ 2 - d2) / (ro ^ 2 - ri ^ 2)))

/-- A disk mask rasterized on the smoke grid (the
`flow.CenteredGrid(values=flow.SoftGeometryMask(flow.Sphere(...)))`
construction of `main`). -/
def maskGrid (cfg : Config) (cx cy r : ℚ) : Smoke cfg :=
  fun i j => softDiskMask cfg cx cy r (smokeX cfg i) (smokeY cfg j)

/-- The inflow list of `main`: rate 2.2 on a disk at (60, 9.5) of radius
5, and rate 0.8 on a disk at (10, 50) of radius 5, both on the smoke
grid. -/
def configuredInflow : Smoke configuredCfg × Smoke configuredCfg :=
  ( (11/5 : ℚ) • maskGrid configuredCfg 60 (19/2) 5
  , (4/5 : ℚ) • maskGrid configuredCfg 10 50 5 )

/-- The whole simulation of `main`: the configured run advanced for
`N_TIME_STEPS` ticks. -/
def main_trajectory : Option (SimState configuredCfg × List (Smoke configuredCfg)) :=
  run configuredCfg configuredInflow N_TIME_STEPS

/-- Interior cells of the velocity grid (all four neighbours exist). -/
def Interior (cfg : Config) (i : Fin cfg.nx) (j : Fin cfg.ny) : Prop :=
  0 < (i : ℕ) ∧ (i : ℕ) + 1 < cfg.nx ∧ 0 < (j : ℕ) ∧ (j : ℕ) + 1 < cfg.ny

/-- A small configuration on which the Poisson solve can never meet its
tolerance (the tolerance is negative, so the residual check fails and the
iteration cap is reached without convergence at every step). -/
def cfgFail : Config := ⟨1, 1, 1, 1, 1, 1, -1, 5, 1/4⟩

/-- An inflow pair for the failing configuration. -/
def inflowFail : Smoke cfgFail × Smoke cfgFail := (0, 0)

/-- A 3×3 configuration used to exhibit an interior cell. -/
def cfg3 : Config := ⟨3, 3, 3, 3, 3, 3, 1/100000, 10, 1/4⟩

/-! ### Basic lemmas about sampling and the zero field -/

theorem getZero_eq_zero {n m : ℕ} (v : Fin n → Fin m → ℚ)
    (h : ∀ i j, v i j = 0) (a b : ℤ) : getZero n m v a b = 0 := by
  rw [getZero]
  split
  · exact h _ _
  · rfl

theorem getClamp_eq_zero {n m : ℕ} (v : Fin n → Fin m → ℚ)
    (h : ∀ i j, v i j = 0) (a b : ℤ) : getClamp n m v a b = 0 := by
  rw [getClamp]
  split
  · exact h _ _
  · rfl

theorem bilin_eq_zero (g : ℤ → ℤ → ℚ) (h : ∀ a b, g a b = 0) (fx fy : ℚ) :
    bilin g fx fy = 0 := by
  simp only [bilin, h]
  ring

theorem sampleSmoke_eq_zero (cfg : Config) (s : Smoke cfg)
    (h : ∀ i j, s i j = 0) (x y : ℚ) : sampleSmoke cfg s x y = 0 :=
  bilin_eq_zero _ (fun a b => getClamp_eq_zero s h a b) _ _

theorem sampleVel_zero (cfg : Config) (x y : ℚ) :
    sampleVel cfg 0 x y = (0, 0) := by
  rw [sampleVel]
  refine Prod.ext ?_ ?_ <;>
    exact bilin_eq_zero _ (fun a b => getZero_eq_zero _ (fun _ _ => rfl) a b) _ _

theorem semi_lagrangian_smoke_zero (cfg : Config) (v : Staggered cfg) (dt : ℚ) :
    semi_lagrangian_smoke cfg 0 v dt = 0 := by
  funext i j
  exact sampleSmoke_eq_zero cfg 0 (fun _ _ => rfl) _ _

theorem mac_cormack_zero (cfg : Config) (v : Staggered cfg) (dt : ℚ) :
    mac_cormack cfg 0 v dt = 0 := by
  rw [mac_cormack, semi_lagrangian_smoke_zero, semi_lagrangian_smoke_zero]
  simp

theorem semi_lagrangian_velocity_zero (cfg : Config) (v : Staggered cfg) (dt : ℚ) :
    semi_lagrangian_velocity cfg 0 v dt = 0 := by
  rw [semi_lagrangian_velocity]
  refine Prod.ext ?_ ?_ <;> funext i j <;>
    exact bilin_eq_zero _ (fun a b => getZero_eq_zero _ (fun _ _ => rfl) a b) _ _

theorem resample_cmul_zero (cfg : Config) (b : ℚ × ℚ) (t : Staggered cfg) :
    resample_to_faces cfg (cmulVec cfg 0 b) t = 0 := by
  rw [resample_to_faces]
  refine Prod.ext ?_ ?_ <;> funext i j <;>
    exact sampleSmoke_eq_zero cfg _ (fun _ _ => zero_mul _) _ _

/-! ### Lemmas about the projection -/

theorem divS_zero (cfg : Config) : divS cfg 0 = 0 := by
  funext i j
  simp [divS]

theorem gradP_zero (cfg : Config) : gradP cfg 0 = 0 := by
  rw [gradP]
  refine Prod.ext ?_ ?_ <;> funext i j <;> [skip; skip] <;>
    · simp only []
      split <;> simp

theorem divS_sub (cfg : Config) (u w : Staggered cfg) (i : Fin cfg.nx) (j : Fin cfg.ny) :
    divS cfg (u - w) i j = divS cfg u i j - divS cfg w i j := by
  simp only [divS, Prod.fst_sub, Prod.snd_sub, Pi.sub_apply]
  ring

theorem residOk_true_iff (cfg : Config) (rhs p : Pressure cfg) :
    residOk cfg rhs p = true ↔ ∀ i j, |rhs i j - lap cfg p i j| ≤ cfg.tol := by
  rw [residOk, decide_eq_true_eq]

theorem residOk_zero (cfg : Config) (h : 0 ≤ cfg.tol) : residOk cfg 0 0 = true := by
  rw [residOk_true_iff]
  intro i j
  simp [lap, gradP_zero, divS_zero, h]

theorem solveP_of_residOk (cfg : Config) (rhs p : Pressure cfg)
    (h : residOk cfg rhs p = true) (k : ℕ) : solveP cfg rhs k p = some p := by
  cases k <;> simp [solveP, h]

theorem solveP_sound (cfg : Config) (rhs : Pressure cfg) :
    ∀ (k : ℕ) (p0 p : Pressure cfg), solveP cfg rhs k p0 = some p →
      residOk cfg rhs p = true := by
  intro k
  induction k with
  | zero =>
      intro p0 p h
      rw [solveP] at h
      split at h
      · cases h; assumption
      · cases h
  | succ n ih =>
      intro p0 p h
      rw [solveP] at h
      split at h
      · cases h; assumption
      · exact ih _ _ h

theorem make_incompressible_zero (cfg : Config) (h : 0 ≤ cfg.tol) :
    make_incompressible cfg 0 = some (0, 0) := by
  rw [make_incompressible, divS_zero, solveP_of_residOk cfg 0 0 (residOk_zero cfg h)]
  simp [gradP_zero]

/-! ### The all-zero state is preserved by both step functions -/

theorem step_inflow_zero (cfg : Config) (c : Staggered cfg) (dt : ℚ)
    (h : 0 ≤ cfg.tol) : step_inflow cfg 0 0 (0, 0) c dt = some (initState cfg) := by
  simp only [step_inflow, mac_cormack_zero, add_zero, resample_cmul_zero,
    semi_lagrangian_velocity_zero, smul_zero, make_incompressible_zero cfg h,
    Option.map_some', initState]

theorem step_no_inflow_zero (cfg : Config) (c : Staggered cfg) (dt : ℚ)
    (h : 0 ≤ cfg.tol) : step_no_inflow cfg 0 0 (0, 0) c dt = some (initState cfg) := by
  simp only [step_no_inflow, mac_cormack_zero, add_zero, resample_cmul_zero,
    semi_lagrangian_velocity_zero, smul_zero, make_incompressible_zero cfg h,
    Option.map_some', initState]

theorem tick_zero (cfg : Config) (h : 0 ≤ cfg.tol) (i : ℕ) :
    tick cfg (0, 0) i (initState cfg) = some (initState cfg) := by
  rw [tick]
  split
  · exact step_inflow_zero cfg 0 1 h
  · exact step_no_inflow_zero cfg 0 1 h

theorem run_zero (cfg : Config) (h : 0 ≤ cfg.tol) :
    ∀ n : ℕ, run cfg (0, 0) n = some (initState cfg, List.replicate (n + 1) 0) := by
  intro n
  induction n with
  | zero => rfl
  | succ n ih =>
      rw [run, ih]
      simp only [Option.some_bind, tick_zero cfg h n, Option.map_some']
      rw [show ((initState cfg).2) = (0 : Smoke cfg) from rfl,
        ← List.replicate_succ' (n + 1) (0 : Smoke cfg)]

/-! ### Failure propagation when the solver does not converge -/

theorem residOk_false_of_tol_neg (cfg : Config) (hx : 0 < cfg.nx) (hy : 0 < cfg.ny)
    (h : cfg.tol < 0) (rhs p : Pressure cfg) : residOk cfg rhs p = false := by
  rw [residOk, decide_eq_false_iff_not]
  intro hall
  have h1 := hall ⟨0, hx⟩ ⟨0, hy⟩
  have h2 := abs_nonneg (rhs ⟨0, hx⟩ ⟨0, hy⟩ - lap cfg p ⟨0, hx⟩ ⟨0, hy⟩)
  linarith

theorem solveP_none_of_tol_neg (cfg : Config) (hx : 0 < cfg.nx) (hy : 0 < cfg.ny)
    (h : cfg.tol < 0) (rhs : Pressure cfg) :
    ∀ (k : ℕ) (p : Pressure cfg), solveP cfg rhs k p = none := by
  intro k
  induction k with
  | zero => intro p; rw [solveP, residOk_false_of_tol_neg cfg hx hy h]; rfl
  | succ n ih =>
      intro p
      rw [solveP, residOk_false_of_tol_neg cfg hx hy h]
      simpa using ih _

theorem make_incompressible_none_of_tol_neg (cfg : Config) (hx : 0 < cfg.nx)
    (hy : 0 < cfg.ny) (h : cfg.tol < 0) (u : Staggered cfg) :
    make_incompressible cfg u = none := by
  rw [make_incompressible, solveP_none_of_tol_neg cfg hx hy h]
  rfl

theorem tick_none_of_tol_neg (cfg : Config) (hx : 0 < cfg.nx) (hy : 0 < cfg.ny)
    (h : cfg.tol < 0) (inflow : Smoke cfg × Smoke cfg) (i : ℕ) (st : SimState cfg) :
    tick cfg inflow i st = none := by
  rw [tick]
  split <;>
    simp [step_inflow, step_no_inflow, make_incompressible_none_of_tol_neg cfg hx hy h]

/-! ### Structure of the accumulated trajectory -/

theorem run_split (cfg : Config) (inflow : Smoke cfg × Smoke cfg) (n : ℕ)
    (st : SimState cfg) (tr : List (Smoke cfg))
    (h : run cfg inflow (n + 1) = some (st, tr)) :
    ∃ st0 tr0, run cfg inflow n = some (st0, tr0) ∧
      tick cfg inflow n st0 = some st ∧ tr = tr0 ++ [st.2] := by
  rw [run] at h
  cases hr : run cfg inflow n with
  | none => rw [hr] at h; cases h
  | some p =>
      rw [hr, Option.some_bind] at h
      cases ht : tick cfg inflow n p.1 with
      | none => rw [ht] at h; cases h
      | some st' =>
          rw [ht, Option.map_some'] at h
          injection h with h'
          rw [Prod.mk.injEq] at h'
          obtain ⟨h1, h2⟩ := h'
          subst h1
          refine ⟨p.1, p.2, ?_, ht, h2.symm⟩
          exact rfl

theorem run_length (cfg : Config) (inflow : Smoke cfg × Smoke cfg) :
    ∀ (n : ℕ) (st : SimState cfg) (tr : List (Smoke cfg)),
      run cfg inflow n = some (st, tr) → tr.length = n + 1 := by
  intro n
  induction n with
  | zero =>
      intro st tr h
      rw [run] at h
      injection h with h'
      rw [Prod.mk.injEq] at h'
      rw [← h'.2]
      rfl
  | succ n ih =>
      intro st tr h
      obtain ⟨st0, tr0, hr, ht, htr⟩ := run_split cfg inflow n st tr h
      subst htr
      rw [List.length_append, ih st0 tr0 hr]
      rfl

/-! ### The claims -/

/-- C1: for every tick, the step is exactly the pipeline — the smoke is
advected by MacCormack with the previous velocity, the active inflow
contribution is added (the summed inflow for ticks below 50, nothing
afterwards), a buoyancy force is computed from the resulting new smoke
field, the velocity is self-advected by one semi-Lagrangian step, the
buoyancy force scaled by dt (= 1) is added, the result is projected to a
divergence-free velocity, and the resulting (velocity, smoke) pair
becomes the next state whose smoke field is appended to the emitted
trajectory. -/
theorem C1_tick_pipeline :
    (∀ (cfg : Config) (inflow : Smoke cfg × Smoke cfg) (i : ℕ) (st : SimState cfg),
      tick cfg inflow i st =
        (make_incompressible cfg
            (semi_lagrangian_velocity cfg st.1 st.1 1
              + (1 : ℚ) • resample_to_faces cfg
                  (cmulVec cfg
                    (mac_cormack cfg st.2 st.1 1
                      + (if i < 50 then inflow.1 + inflow.2 else 0)) buoyancy_vec)
                  st.1)).map
          fun r => (r.1, mac_cormack cfg st.2 st.1 1
            + (if i < 50 then inflow.1 + inflow.2 else 0))) ∧
    (∀ (cfg : Config) (inflow : Smoke cfg × Smoke cfg) (n : ℕ),
      run cfg inflow (n + 1) =
        (run cfg inflow n).bind fun p =>
          (tick cfg inflow n p.1).map fun st => (st, p.2 ++ [st.2])) := by
  constructor
  · intro cfg inflow i st
    rw [tick]
    split
    · simp only [step_inflow, add_assoc]
    · simp only [step_no_inflow, add_zero]
  · intro cfg inflow n
    rfl

/-- C9: the result of each step function is determined solely by its
explicit arguments; the closure-captured loop variable `velocity` (used
only as the resampling target, whose sample locations are fixed by the
grid layout) never influences the output. -/
theorem C9_no_captured_state_influence :
    (∀ (cfg : Config) (v : Staggered cfg) (s : Smoke cfg)
        (inflow : Smoke cfg × Smoke cfg) (dt : ℚ) (c1 c2 : Staggered cfg),
      step_inflow cfg v s inflow c1 dt = step_inflow cfg v s inflow c2 dt) ∧
    (∀ (cfg : Config) (v : Staggered cfg) (s : Smoke cfg)
        (inflow : Smoke cfg × Smoke cfg) (dt : ℚ) (c1 c2 : Staggered cfg),
      step_no_inflow cfg v s inflow c1 dt = step_no_inflow cfg v s inflow c2 dt) :=
  ⟨fun _ _ _ _ _ _ _ => rfl, fun _ _ _ _ _ _ _ => rfl⟩

/-- C10: the inflow parameter of `step_no_inflow` never affects its
result — the function body does not read it. -/
theorem C10_step_no_inflow_ignores_inflow :
    ∀ (cfg : Config) (v : Staggered cfg) (s : Smoke cfg)
      (i1 i2 : Smoke cfg × Smoke cfg) (c : Staggered cfg) (dt : ℚ),
      step_no_inflow cfg v s i1 c dt = step_no_inflow cfg v s i2 c dt :=
  fun _ _ _ _ _ _ _ => rfl

/-- C5: for every state, inflow and dt, `step_no_inflow` returns exactly
what `step_inflow` returns on an inflow whose summed contribution is the
zero field: the two near-duplicate step functions implement the same
transformation apart from the inflow addition. -/
theorem C5_step_no_inflow_eq_step_inflow_zero_sum :
    ∀ (cfg : Config) (v : Staggered cfg) (s : Smoke cfg)
      (inflow iz : Smoke cfg × Smoke cfg) (c : Staggered cfg) (dt : ℚ),
      iz.1 + iz.2 = 0 →
      step_no_inflow cfg v s inflow c dt = step_inflow cfg v s iz c dt := by
  intro cfg v s inflow iz c dt h
  simp only [step_no_inflow, step_inflow, add_assoc, h, add_zero]

/-- Witness for C5 at the configured grids, the zero state and the zero
inflow pair. -/
theorem C5_witness :
    step_no_inflow configuredCfg 0 0 (0, 0) 0 1
      = step_inflow configuredCfg 0 0 (0, 0) 0 1 :=
  C5_step_no_inflow_eq_step_inflow_zero_sum configuredCfg 0 0 (0, 0) (0, 0) 0 1
    (add_zero 0)

/-- C4: on every successful tick the new smoke field is the freshly
advected smoke plus the summed configured source fields when the tick
index is in the active range `[0, 50)`, and the advected smoke alone
(no inflow contribution) for ticks with index ≥ 50. -/
theorem C4_inflow_added_iff_active :
    ∀ (cfg : Config) (inflow : Smoke cfg × Smoke cfg) (i : ℕ)
      (v v' : Staggered cfg) (s s' : Smoke cfg),
      tick cfg inflow i (v, s) = some (v', s') →
      s' = mac_cormack cfg s v 1 + (if i < 50 then inflow.1 + inflow.2 else 0) := by
  intro cfg inflow i v v' s s' h
  rw [tick] at h
  split at h
  · next hlt =>
      rw [if_pos hlt]
      simp only [step_inflow] at h
      obtain ⟨r, hr, heq⟩ := Option.map_eq_some'.mp h
      rw [Prod.mk.injEq] at heq
      rw [← heq.2, add_assoc]
  · next hge =>
      rw [if_neg hge]
      simp only [step_no_inflow] at h
      obtain ⟨r, hr, heq⟩ := Option.map_eq_some'.mp h
      rw [Prod.mk.injEq] at heq
      rw [← heq.2, add_zero]

/-- Witness for C4: tick 0 of the zero state with a zero inflow pair on
the configured grids. -/
theorem C4_witness :
    (0 : Smoke configuredCfg) = mac_cormack configuredCfg 0 0 1
      + (if 0 < 50 then (0 : Smoke configuredCfg) + 0 else 0) :=
  C4_inflow_added_iff_active configuredCfg (0, 0) 0 0 0 0 0
    (tick_zero configuredCfg (by norm_num [configuredCfg]) 0)

/-- C6: with no inflow active and the zero initial state, the all-zero
SimulationState is a fixed point of the step: for any number of ticks the
run succeeds, the final velocity and smoke are zero, and every emitted
smoke snapshot is exactly zero. -/
theorem C6_zero_state_fixed_point :
    ∀ n : ℕ, run configuredCfg (0, 0) n
      = some (initState configuredCfg, List.replicate (n + 1) 0) :=
  fun n => run_zero configuredCfg (by norm_num [configuredCfg]) n

/-- C2: whenever the projection step succeeds on a tentative velocity
field, the discrete divergence of the corrected velocity it returns is at
most the configured tolerance at every interior cell. -/
theorem C2_projection_divergence_within_tol :
    ∀ (cfg : Config) (u u' : Staggered cfg) (p : Pressure cfg),
      make_incompressible cfg u = some (u', p) →
      ∀ (i : Fin cfg.nx) (j : Fin cfg.ny), Interior cfg i j →
        |divS cfg u' i j| ≤ cfg.tol := by
  intro cfg u u' p h i j hij
  rw [make_incompressible] at h
  obtain ⟨q, hq, heq⟩ := Option.map_eq_some'.mp h
  rw [Prod.mk.injEq] at heq
  obtain ⟨h1, h2⟩ := heq
  rw [← h1, divS_sub]
  have hres := (residOk_true_iff cfg (divS cfg u) q).mp (solveP_sound cfg _ _ _ _ hq)
  simpa [lap] using hres i j

/-- Witness for C2: the zero tentative velocity on the 3×3 grid, whose
projection succeeds immediately, checked at the interior cell (1, 1). -/
theorem C2_witness :
    |divS cfg3 0 ⟨1, by norm_num [cfg3]⟩ ⟨1, by norm_num [cfg3]⟩| ≤ cfg3.tol :=
  C2_projection_divergence_within_tol cfg3 0 0 0
    (make_incompressible_zero cfg3 (by norm_num [cfg3]))
    ⟨1, by norm_num [cfg3]⟩ ⟨1, by norm_num [cfg3]⟩
    (by refine ⟨by norm_num, by norm_num [cfg3], by norm_num, by norm_num [cfg3]⟩)

/-- C8 counterexample: after a run of 0 ticks the code's trajectory
already contains one snapshot (the initial smoke field), not zero — the
trajectory never has exactly one entry per completed tick, because the
initial field is prepended before the loop. -/
theorem C8_counterexample_initial_snapshot :
    (run configuredCfg configuredInflow 0).map (fun r => r.2.length) = some 1
      ∧ (1 : ℕ) ≠ 0 :=
  ⟨rfl, one_ne_zero⟩

/-- C8 amended: after a successful run of N ticks the trajectory contains
N+1 snapshots — the initial smoke field first (151 entries for the
configured 150-tick run), and for every tick k < N the entry at index
k+1 is the smoke field produced by tick k. -/
theorem C8_trajectory_shape :
    ∀ (cfg : Config) (inflow : Smoke cfg × Smoke cfg) (n : ℕ)
      (st : SimState cfg) (tr : List (Smoke cfg)),
      run cfg inflow n = some (st, tr) →
      tr.length = n + 1 ∧ tr[0]? = some (initState cfg).2 ∧
      ∀ k, k < n → tr[k + 1]? = (run cfg inflow (k + 1)).map fun r => r.1.2 := by
  intro cfg inflow n
  induction n with
  | zero =>
      intro st tr h
      rw [run] at h
      injection h with h'
      rw [Prod.mk.injEq] at h'
      refine ⟨by rw [← h'.2]; rfl, by rw [← h'.2]; rfl, fun k hk => absurd hk (Nat.not_lt_zero k)⟩
  | succ n ih =>
      intro st tr h
      obtain ⟨st0, tr0, hr, ht, htr⟩ := run_split cfg inflow n st tr h
      obtain ⟨hlen, hhead, hent⟩ := ih st0 tr0 hr
      subst htr
      refine ⟨?_, ?_, ?_⟩
      · rw [List.length_append, hlen]
        rfl
      · rw [List.getElem?_append_left (by rw [hlen]; omega), hhead]
      · intro k hk
        rcases Nat.lt_succ_iff_lt_or_eq.mp hk with hk' | rfl
        · rw [List.getElem?_append_left (by rw [hlen]; omega), hent k hk']
        · rw [h, Option.map_some']
          have hl : tr0.length = k + 1 := hlen
          rw [← hl, List.getElem?_concat_length]

/-- Witness for C8 amended: the zero-inflow zero-state run of one tick on
the configured grids. -/
theorem C8_witness :
    (List.replicate 2 (0 : Smoke configuredCfg)).length = 1 + 1 ∧
    (List.replicate 2 (0 : Smoke configuredCfg))[0]? = some (initState configuredCfg).2 ∧
    ∀ k, k < 1 → (List.replicate 2 (0 : Smoke configuredCfg))[k + 1]?
      = (run configuredCfg (0, 0) (k + 1)).map fun r => r.1.2 :=
  C8_trajectory_shape configuredCfg (0, 0) 1 (initState configuredCfg)
    (List.replicate 2 0) (run_zero configuredCfg (by norm_num [configuredCfg]) 1)

/-- C7 counterexample: on `cfgFail` the Poisson solve reaches its
iteration cap without meeting the (unattainable) tolerance at the very
first tick; the step then produces no result at all — no NumericalError
is attached to any result, the run aborts, and no snapshot (let alone a
status-tagged one) is emitted for the failing step. -/
theorem C7_counterexample_no_status :
    tick cfgFail inflowFail 0 (initState cfgFail) = none
      ∧ run cfgFail inflowFail 1 = none := by
  have hx : 0 < cfgFail.nx := Nat.one_pos
  have hy : 0 < cfgFail.ny := Nat.one_pos
  have htol : cfgFail.tol < 0 := by norm_num [cfgFail]
  have ht := tick_none_of_tol_neg cfgFail hx hy htol inflowFail 0 (initState cfgFail)
  refine ⟨ht, ?_⟩
  rw [run, run, Option.some_bind, ht]
  rfl

/-- C7 amended: when the Poisson solve reaches its iteration cap without
meeting the tolerance, the projector signals failure by returning no
velocity field at all (never silently returning an under-converged one:
any returned field passed the residual check), the failing step produces
no result, and the run halts at that tick; emitted snapshots are bare
smoke fields carrying no per-step status. -/
theorem C7_failure_halts_run :
    (∀ (cfg : Config) (u : Staggered cfg),
      make_incompressible cfg u = none ↔ solveP cfg (divS cfg u) cfg.cap 0 = none) ∧
    (∀ (cfg : Config) (u : Staggered cfg) (r : Staggered cfg × Pressure cfg),
      make_incompressible cfg u = some r → residOk cfg (divS cfg u) r.2 = true) ∧
    (∀ (cfg : Config) (inflow : Smoke cfg × Smoke cfg) (n : ℕ)
      (st : SimState cfg) (tr : List (Smoke cfg)),
      run cfg inflow n = some (st, tr) → tick cfg inflow n st = none →
        run cfg inflow (n + 1) = none) := by
  refine ⟨?_, ?_, ?_⟩
  · intro cfg u
    rw [make_incompressible, Option.map_eq_none']
  · intro cfg u r h
    rw [make_incompressible] at h
    obtain ⟨q, hq, heq⟩ := Option.map_eq_some'.mp h
    have h2 : r.2 = q := by rw [← heq]
    rw [h2]
    exact solveP_sound cfg _ _ _ _ hq
  · intro cfg inflow n st tr h ht
    rw [run, h, Option.some_bind, ht]
    rfl

/-- Witness for C7 amended: the failing configuration's first tick halts
the run. -/
theorem C7_witness : run cfgFail inflowFail (0 + 1) = none :=
  C7_failure_halts_run.2.2 cfgFail inflowFail 0 (initState cfgFail)
    [(initState cfgFail).2] rfl
    (tick_none_of_tol_neg cfgFail Nat.one_pos Nat.one_pos
      (by norm_num [cfgFail]) inflowFail 0 (initState cfgFail))

/-- C3 counterexample: the configured run does not use exactly one inflow
source — the second entry of the inflow list (rate 0.8, disk at (10, 50))
contributes a nonzero field: at smoke cell (19, 32), whose center
(9.75, 48.75) lies inside the second disk, it has value 4/5 ≠ 0. -/
theorem C3_counterexample_second_source :
    configuredInflow.2 ⟨19, by decide⟩ ⟨32, by decide⟩ = 4/5 ∧ (4/5 : ℚ) ≠ 0 := by
  constructor
  · simp only [configuredInflow, Pi.smul_apply, smul_eq_mul, maskGrid, softDiskMask,
      smokeX, smokeY, sdx, sdy, configuredCfg]
    norm_num
  · norm_num

/-- C3 amended: the configured run uses a velocity grid of resolution
64×64 and a smoke grid of resolution 200×200 on domain bounds 100×300,
exactly two inflow sources (a disk of center (60, 9.5) and radius 5 with
rate 2.2, and a disk of center (10, 50) and radius 5 with rate 0.8),
both active on ticks [0, 50), buoyancy vector (0, 0.1), dt = 1, and runs
for 150 ticks. -/
theorem C3_configured_scenario :
    configuredCfg.nx = 64 ∧ configuredCfg.ny = 64 ∧
    configuredCfg.mx = 200 ∧ configuredCfg.my = 200 ∧
    configuredCfg.bX = 100 ∧ configuredCfg.bY = 300 ∧
    configuredInflow = ((11/5 : ℚ) • maskGrid configuredCfg 60 (19/2) 5,
      (4/5 : ℚ) • maskGrid configuredCfg 10 50 5) ∧
    buoyancy_vec = (0, 1/10) ∧
    N_TIME_STEPS = 150 ∧
    main_trajectory = run configuredCfg configuredInflow 150 ∧
    (∀ (cfg : Config) (inflow : Smoke cfg × Smoke cfg) (i : ℕ) (st : SimState cfg),
      tick cfg inflow i st =
        if i < 50 then step_inflow cfg st.1 st.2 inflow st.1 1
        else step_no_inflow cfg st.1 st.2 inflow st.1 1) :=
  ⟨rfl, rfl, rfl, rfl, rfl, rfl, rfl, rfl, rfl, rfl, fun _ _ _ _ => rfl⟩
